import Mathlib

/-!
Shallow embedding of the EDS (extended data square) store from
`share/eds/store.go` of celestia-node.

The store's own control flow (`put`, `get`, `getCAR`, `carBlockstore`,
`getDAH`, `getAccessor`, `getCachedAccessor`, `remove`, `has`, `Start`,
`Stop`, `inMemoryOnceMount.Fetch`) is translated function by function from
the source.  External effects - results of the asynchronous DAGStore
channels, filesystem failures - are passed in as explicit oracle records,
and the mutable parts of the world (DAGStore shard registry, the blocks
directory, the full-index repo, the accessor cache) are an explicit
`StoreState` threaded through each operation.

Components of the repository that the source calls but whose code is not
part of `share/eds/store.go` (the EDS codec `WriteEDS`/`ReadEDS`, the
blockstore cache internals, the CID helpers) are modelled from the spec;
each such definition carries a doc comment saying so.
-/

namespace EdsStore

/-- A byte string: each element is one byte. -/
abbrev Bytes := List Nat

/-- A data root (`share.DataHash`): the content address of a square. -/
abbrev DataHash := Bytes

/-- A shard key (`shard.Key`): the string form of a data root. -/
abbrev Key := String

/-- Structured Go errors as the store produces them.  `wrap` models
`fmt.Errorf("...: %w", err)`. -/
inductive GoErr where
  | shardExists
  | shardUnknown
  | notFound
  | ctxCanceled
  | integrityMismatch (key : Key)
  | ioErr (msg : String)
  | wrap (msg : String) (inner : GoErr)
deriving DecidableEq, Repr

/-- Model of Go's `errors.Is`: direct equality, or equality after peeling
`%w` wrappers. -/
def errIs : GoErr → GoErr → Bool
  | .wrap m inner, target => (GoErr.wrap m inner == target) || errIs inner target
  | e, target => e == target

/-- Hex digit for the canonical string encoding of a hash. -/
def hexDigit (n : Nat) : Char :=
  if n < 10 then Char.ofNat (48 + n) else Char.ofNat (87 + n)

/-- Model of `root.String()`: lower-case hex encoding of the hash bytes,
used as the shard key and as the file name under the blocks path. -/
def keyOf (root : DataHash) : Key :=
  String.mk (root.flatMap (fun b => [hexDigit (b / 16), hexDigit (b % 16)]))

/-- Association-list lookup keyed by decidable equality. -/
def lookupF {α : Type} (l : List (Key × α)) (k : Key) : Option α :=
  match l with
  | [] => none
  | (k', v) :: rest => if k' = k then some v else lookupF rest k

/-- Association-list update: overwrite the binding for `k`, or append it. -/
def setF {α : Type} (l : List (Key × α)) (k : Key) (v : α) : List (Key × α) :=
  match l with
  | [] => [(k, v)]
  | (k', v') :: rest => if k' = k then (k, v) :: rest else (k', v') :: setF rest k v

/-- Association-list removal of every binding for `k`. -/
def removeF {α : Type} (l : List (Key × α)) (k : Key) : List (Key × α) :=
  l.filter (fun p => p.1 ≠ k)

/-- Number of bindings an association list holds for `k`. -/
def countKey {α : Type} (l : List (Key × α)) (k : Key) : Nat :=
  (l.filter (fun p => p.1 = k)).length

/-! ### The EDS codec, modelled from the spec

The codec (`WriteEDS` / `ReadEDS`, repository files not under `share/eds/store.go`)
is the spec's "codec boundary": `encode(square, sink)` writes a header
listing exactly `2×W` roots followed by the share payload, and
`decode(source, expectedRoot)` re-derives the root from the decoded
structure and fails on divergence. -/

/-- A square: rows of shares, each share a byte string.  `rsmt2d.ExtendedDataSquare`
flattened row-major is `S.flatten`. -/
abbrev EDS := List (List Bytes)

/-- Length-prefixed encoding of one byte string. -/
def encBytes (xs : Bytes) : Bytes := xs.length :: xs

/-- Length-prefixed encoding of a list of byte strings. -/
def encL2 (xss : List Bytes) : Bytes := xss.length :: xss.flatMap encBytes

/-- Length-prefixed encoding of a list of rows. -/
def encL3 (x : EDS) : Bytes := x.length :: x.flatMap encL2

/-- Decoder for `encBytes`; returns the value and the remaining input. -/
def decBytes : Bytes → Option (Bytes × Bytes)
  | [] => none
  | n :: rest => if n ≤ rest.length then some (rest.take n, rest.drop n) else none

/-- Decoder for `n` consecutive `encBytes` values. -/
def decBytesMany : Nat → Bytes → Option (List Bytes × Bytes)
  | 0, rest => some ([], rest)
  | n + 1, rest =>
    match decBytes rest with
    | none => none
    | some (x, r) =>
      match decBytesMany n r with
      | none => none
      | some (xs, r2) => some (x :: xs, r2)

/-- Decoder for `encL2`. -/
def decL2 : Bytes → Option (List Bytes × Bytes)
  | [] => none
  | n :: rest => decBytesMany n rest

/-- Decoder for `n` consecutive `encL2` values. -/
def decL2Many : Nat → Bytes → Option (List (List Bytes) × Bytes)
  | 0, rest => some ([], rest)
  | n + 1, rest =>
    match decL2 rest with
    | none => none
    | some (x, r) =>
      match decL2Many n r with
      | none => none
      | some (xs, r2) => some (x :: xs, r2)

/-- Decoder for `encL3`. -/
def decL3 : Bytes → Option (EDS × Bytes)
  | [] => none
  | n :: rest => decL2Many n rest

/-- Modelled from the spec: a row's NMT root, an injective digest of the
row contents (hash collisions are out of the model). -/
def hashRow (row : List Bytes) : Bytes := encL2 row

/-- Row roots of a square: one per row. -/
def rowRoots (S : EDS) : List Bytes := S.map hashRow

/-- Column roots of a square: one per column index, the digest of the
column read downwards. -/
def colRoots (S : EDS) : List Bytes :=
  (List.range S.length).map (fun j => hashRow (S.map (fun r => r.getD j [])))

/-- Modelled from the spec: `dah.Hash()`, the digest of the concatenated
row and column roots (injective in the model). -/
def dahHash (roots : List Bytes) : Bytes := encL2 roots

/-- The data root of a square, derived from its row and column roots. -/
def rootOf (S : EDS) : DataHash := dahHash (rowRoots S ++ colRoots S)

/-- Modelled from the spec: the CID wrapping a root digest (multihash
prefix in front of the digest bytes). -/
def cidFromRoot (r : Bytes) : Bytes := 18 :: 40 :: r

/-- Modelled from `share/ipld`: `NamespacedSha256FromCID`, recovering the
digest bytes from a CID by stripping the multihash prefix. -/
def namespacedSha256FromCID (c : Bytes) : Bytes := c.drop 2

/-- Modelled from the spec: `WriteEDS` serializes a square as a CARv1
stream - a header listing the `2×W` root CIDs, then the share payload. -/
def writeEDS (S : EDS) : Bytes :=
  encL2 ((rowRoots S ++ colRoots S).map cidFromRoot) ++ encL3 S

/-- Modelled from the spec: `ReadEDS` decodes the CAR stream back into a
square, re-derives the root from the decoded structure, and fails with a
content-integrity mismatch on divergence. -/
def readEDS (bytes : Bytes) (expected : DataHash) : Except GoErr EDS :=
  match decL2 bytes with
  | none => .error (.ioErr "failed to read CAR header")
  | some (_, rest) =>
    match decL3 rest with
    | none => .error (.ioErr "failed to decode EDS payload")
    | some (sq, _) =>
      if rootOf sq = expected then .ok sq
      else .error (.integrityMismatch (keyOf expected))

/-! ### Store state and DAGStore model -/

/-- Per-shard registry information (`dagstore.ShardInfo`).  `err` is the
shard's stored error state (`info.Error`): `none` for a healthy shard. -/
structure ShardInfo where
  err : Option GoErr
deriving DecidableEq, Repr

/-- An open accessor over a shard (`dagstore.ShardAccessor` together with
its blockstore view): `bytes` is what its sequential reader yields. -/
structure Accessor where
  bytes : Bytes
deriving DecidableEq, Repr

/-- The mutable world the store operations act on: the DAGStore shard
registry, the files under the blocks path, the full-index repo entries,
and the accessor cache. -/
structure StoreState where
  registry : List (Key × ShardInfo)
  files : List (Key × Bytes)
  carIndex : List Key
  cache : List (Key × Accessor)
deriving DecidableEq, Repr

/-- Modelled from the spec: `DAGStore.GetShardInfo`.  A registered key
yields its info; an unknown key yields the zero-value info together with
`ErrShardUnknown`; a genuine registry failure (`regFailure`) is returned
as-is with the zero-value info. -/
def dagGetShardInfo (st : StoreState) (key : Key) (regFailure : Option GoErr) :
    ShardInfo × Option GoErr :=
  match regFailure with
  | some e => (⟨none⟩, some e)
  | none =>
    match lookupF st.registry key with
    | some info => (info, none)
    | none => (⟨none⟩, some .shardUnknown)

/-- `Store.has`: switch on the `GetShardInfo` error.  `nil` reports
`(true, info.Error)`; `ErrShardUnknown` reports `(false, info.Error)`;
any other error is returned as `(false, err)`. -/
def Store.hasFn (st : StoreState) (root : DataHash) (regFailure : Option GoErr) :
    Bool × Option GoErr :=
  let res := dagGetShardInfo st (keyOf root) regFailure
  match res.2 with
  | none => (true, res.1.err)
  | some e => if e = .shardUnknown then (false, res.1.err) else (false, some e)

/-- Ceiling, in seconds, a detached tracker waits (`trackLateResult`'s
`maxWait`): the pair is the operation name and the ceiling. -/
abbrev Tracker := String × Nat

/-- Modelled from `trackLateResult`: how long the detached tracker blocks,
given when (if ever) the late result arrives.  It waits for the result or
for `maxWait`, whichever comes first. -/
def trackLateWait (arrival : Option Nat) (maxWait : Nat) : Nat :=
  match arrival with
  | none => maxWait
  | some t => min t maxWait

/-! ### Put -/

/-- Oracle for the external effects `Store.put` encounters, in program
order: file-open failure, `WriteEDS` failure, `WriteTo` failure,
`RegisterShard` initiation failure, whether `ctx.Done()` wins the select,
and the error carried by the shard-registration result. -/
structure PutOracle where
  hasRegFailure : Option GoErr := none
  openErr : Option GoErr := none
  writeEDSErr : Option GoErr := none
  writeToErr : Option GoErr := none
  regInitErr : Option GoErr := none
  ctxDoneFirst : Bool := false
  regResultErr : Option GoErr := none
deriving DecidableEq, Repr

/-- Observable side effects of one `Store.put` call. -/
structure PutTrace where
  fileOpened : Bool := false
  bytesWritten : Nat := 0
  registerInitiated : Bool := false
  tracker : Option Tracker := none
deriving DecidableEq, Repr

/-- `Store.put`, translated from the source: short-circuit on `Has`; open
the target file; encode the square into the buffered mount; flush the
buffer to the file in one go; register the shard; wait on the result
channel or hand it to a 5-minute detached tracker on cancellation. -/
def Store.put (st : StoreState) (root : DataHash) (square : EDS) (o : PutOracle) :
    Except GoErr Unit × StoreState × PutTrace :=
  if (Store.hasFn st root o.hasRegFailure).1 then
    (.error .shardExists, st, {})
  else
    let key := keyOf root
    match o.openErr with
    | some e => (.error e, st, {})
    | none =>
      let st1 : StoreState := { st with files := setF st.files key [] }
      match o.writeEDSErr with
      | some e => (.error (.wrap "failed to write EDS to file" e), st1, { fileOpened := true })
      | none =>
        match o.writeToErr with
        | some e => (.error (.wrap "failed to write EDS to file" e), st1, { fileOpened := true })
        | none =>
          let bytes := writeEDS square
          let st2 : StoreState := { st1 with files := setF st1.files key bytes }
          match o.regInitErr with
          | some e =>
            (.error (.wrap "failed to initiate shard registration" e), st2,
              { fileOpened := true, bytesWritten := bytes.length })
          | none =>
            if o.ctxDoneFirst then
              (.error .ctxCanceled, st2,
                { fileOpened := true, bytesWritten := bytes.length,
                  registerInitiated := true, tracker := some ("put", 300) })
            else
              match o.regResultErr with
              | some e =>
                (.error (.wrap "failed to register shard" e), st2,
                  { fileOpened := true, bytesWritten := bytes.length,
                    registerInitiated := true })
              | none =>
                (.ok (), { st2 with registry := setF st2.registry key ⟨none⟩ },
                  { fileOpened := true, bytesWritten := bytes.length,
                    registerInitiated := true })

/-! ### Accessor acquisition and cache -/

/-- Oracle for one shard acquisition: an extra initiation failure beyond
the unknown-shard case, whether `ctx.Done()` wins the select, and the
error carried by the acquisition result. -/
structure AcquireOracle where
  initErrExtra : Option GoErr := none
  ctxDoneFirst : Bool := false
  resultErr : Option GoErr := none
deriving DecidableEq, Repr

/-- Result of an accessor lookup: the value or error, how many DAGStore
acquisitions were initiated, any detached tracker spawned, the stripe
lock index held for the lookup, and the state afterwards. -/
structure CacheLookup where
  res : Except GoErr Accessor
  acquires : Nat := 0
  tracker : Option Tracker := none
  stripe : Nat := 0
  st : StoreState
deriving Repr

/-- Modelled from the spec: `DAGStore.AcquireShard`'s synchronous
initiation outcome - an unregistered key fails immediately with
`ErrShardUnknown`; otherwise any extra failure the oracle injects. -/
def dagAcquireInitErr (st : StoreState) (key : Key) (o : AcquireOracle) : Option GoErr :=
  match lookupF st.registry key with
  | none => some .shardUnknown
  | some _ => o.initErrExtra

/-- `Store.getAccessor`, translated from the source: initiate the
acquisition (mapping `ErrShardUnknown` to `ErrNotFound`), then wait on the
result channel or hand it to a 1-minute detached tracker on cancellation.
A successful acquisition yields an accessor over the shard's bytes. -/
def Store.getAccessor (st : StoreState) (key : Key) (o : AcquireOracle) : CacheLookup :=
  match dagAcquireInitErr st key o with
  | some e =>
    if errIs e .shardUnknown then
      { res := .error .notFound, acquires := 1, st := st }
    else
      { res := .error (.wrap "failed to initialize shard acquisition" e),
        acquires := 1, st := st }
  | none =>
    if o.ctxDoneFirst then
      { res := .error .ctxCanceled, acquires := 1,
        tracker := some ("get_shard", 60), st := st }
    else
      match o.resultErr with
      | some e =>
        { res := .error (.wrap "failed to acquire shard" e), acquires := 1, st := st }
      | none =>
        { res := .ok ⟨(lookupF st.files key).getD []⟩, acquires := 1, st := st }

/-- Modelled from the spec: a deterministic hash of the key string, used
to select a stripe lock. -/
def strHash (k : Key) : Nat :=
  k.data.foldl (fun a c => a * 31 + c.toNat) 7

/-- Modelled from the spec: the stripe index for a shard key is its hash
modulo the fixed stripe count. -/
def shardKeyToStriped (k : Key) : Nat := strHash k % 256

/-- `Store.getCachedAccessor`, translated from the source: under the
stripe lock chosen from the key's hash, look the key up in the cache; a
hit returns the cached accessor with no new acquisition; a miss acquires
from the DAGStore and caches the accessor. -/
def Store.getCachedAccessor (st : StoreState) (key : Key) (o : AcquireOracle) : CacheLookup :=
  match lookupF st.cache key with
  | some a =>
    { res := .ok a, acquires := 0, stripe := shardKeyToStriped key, st := st }
  | none =>
    let t := Store.getAccessor st key o
    match t.res with
    | .error e =>
      { res := .error e, acquires := t.acquires, tracker := t.tracker,
        stripe := shardKeyToStriped key, st := st }
    | .ok a =>
      { res := .ok a, acquires := t.acquires, tracker := t.tracker,
        stripe := shardKeyToStriped key,
        st := { st with cache := setF st.cache key a } }

/-! ### Read paths: GetCAR, CARBlockstore, GetDAH, Get -/

/-- Result of a read-path call: value or error, acquisition count, any
detached tracker, and the state afterwards. -/
structure ReadResult (α : Type) where
  res : Except GoErr α
  acquires : Nat := 0
  tracker : Option Tracker := none
  st : StoreState
deriving Repr

/-- `Store.getCAR`: resolve a cached accessor for the root's key and
return its sequential reader (its byte stream). -/
def Store.getCAR (st : StoreState) (root : DataHash) (o : AcquireOracle) : ReadResult Bytes :=
  let cl := Store.getCachedAccessor st (keyOf root) o
  match cl.res with
  | .error e =>
    { res := .error (.wrap "failed to get accessor" e), acquires := cl.acquires,
      tracker := cl.tracker, st := cl.st }
  | .ok a =>
    { res := .ok a.bytes, acquires := cl.acquires, tracker := cl.tracker, st := cl.st }

/-- `Store.carBlockstore`: resolve a cached accessor and return its
block-addressable view (the accessor itself in the model). -/
def Store.carBlockstore (st : StoreState) (root : DataHash) (o : AcquireOracle) :
    ReadResult Accessor :=
  let cl := Store.getCachedAccessor st (keyOf root) o
  match cl.res with
  | .error e =>
    { res := .error (.wrap "eds/store: failed to get accessor" e), acquires := cl.acquires,
      tracker := cl.tracker, st := cl.st }
  | .ok a =>
    { res := .ok a, acquires := cl.acquires, tracker := cl.tracker, st := cl.st }

/-- `Store.get`: obtain the CAR reader and decode it through the codec,
which verifies integrity against the requested root. -/
def Store.get (st : StoreState) (root : DataHash) (o : AcquireOracle) : ReadResult EDS :=
  let r := Store.getCAR st root o
  match r.res with
  | .error e =>
    { res := .error (.wrap "failed to get CAR file" e), acquires := r.acquires,
      tracker := r.tracker, st := r.st }
  | .ok bytes =>
    match readEDS bytes root with
    | .error e =>
      { res := .error (.wrap "failed to read EDS from CAR file" e), acquires := r.acquires,
        tracker := r.tracker, st := r.st }
    | .ok eds =>
      { res := .ok eds, acquires := r.acquires, tracker := r.tracker, st := r.st }

/-- A CARv1 header: the list of root CIDs. -/
structure CarHeader where
  roots : List Bytes
deriving DecidableEq, Repr

/-- Modelled from the CARv1 layout: `carv1.ReadHeader` parses only the
leading header section of the stream and yields its root CIDs. -/
def readCARHeader (bytes : Bytes) : Option CarHeader :=
  match decL2 bytes with
  | none => none
  | some (cids, _) => some ⟨cids⟩

/-- A DataAvailabilityHeader: row roots and column roots. -/
structure DAH where
  rowRoots : List Bytes
  columnRoots : List Bytes
deriving DecidableEq, Repr

/-- Modelled from the spec: `dah.Hash()`, digesting the concatenated row
and column roots; agrees with `rootOf` on a square's own header. -/
def dahHashOf (d : DAH) : Bytes := dahHash (d.rowRoots ++ d.columnRoots)

/-- `dahFromCARHeader`, translated from the source: extract the digest of
every root CID, then split the list in half - first half row roots, second
half column roots. -/
def dahFromCARHeader (h : CarHeader) : DAH :=
  let rootBytes := h.roots.map namespacedSha256FromCID
  { rowRoots := rootBytes.take (h.roots.length / 2)
    columnRoots := rootBytes.drop (h.roots.length / 2) }

/-- `Store.getDAH`, translated from the source: resolve a cached accessor,
read just the CAR header from its reader, rebuild the DAH, and compare the
rebuilt header's hash against the requested root, failing with a
content-integrity mismatch on divergence. -/
def Store.getDAH (st : StoreState) (root : DataHash) (o : AcquireOracle) : ReadResult DAH :=
  let cl := Store.getCachedAccessor st (keyOf root) o
  match cl.res with
  | .error e =>
    { res := .error (.wrap "eds/store: failed to get accessor" e), acquires := cl.acquires,
      tracker := cl.tracker, st := cl.st }
  | .ok a =>
    match readCARHeader a.bytes with
    | none =>
      { res := .error (.wrap "eds/store: failed to read car header" (.ioErr "car")),
        acquires := cl.acquires, tracker := cl.tracker, st := cl.st }
    | some h =>
      let dah := dahFromCARHeader h
      if dahHashOf dah = root then
        { res := .ok dah, acquires := cl.acquires, tracker := cl.tracker, st := cl.st }
      else
        { res := .error (.integrityMismatch (keyOf root)), acquires := cl.acquires,
          tracker := cl.tracker, st := cl.st }

/-! ### Remove -/

/-- Oracle for `Store.remove`, in program order: `DestroyShard` initiation
failure, whether `ctx.Done()` wins the select, the destruction result's
error, the `DropFullIndex` return pair, and the file-removal failure. -/
structure RemoveOracle where
  destroyInitErr : Option GoErr := none
  ctxDoneFirst : Bool := false
  destroyResultErr : Option GoErr := none
  dropSucceeded : Bool := true
  dropErr : Option GoErr := none
  fileRemoveErr : Option GoErr := none
deriving DecidableEq, Repr

/-- Observable side effects of one `Store.remove` call, recording which of
the strictly ordered steps were reached. -/
structure RemoveTrace where
  destroyInitiated : Bool := false
  indexDropAttempted : Bool := false
  warnedNotDropped : Bool := false
  fileDeleteAttempted : Bool := false
  tracker : Option Tracker := none
deriving DecidableEq, Repr

/-- `Store.remove`, translated from the source: destroy the shard (waiting
on the result channel, or returning the cancellation error and spawning a
1-minute detached tracker); then drop the full index, logging a warning
when nothing was dropped and surfacing a genuine drop error; then delete
the backing CAR file, surfacing its error. -/
def Store.remove (st : StoreState) (root : DataHash) (o : RemoveOracle) :
    Except GoErr Unit × StoreState × RemoveTrace :=
  let key := keyOf root
  match o.destroyInitErr with
  | some e => (.error (.wrap "failed to initiate shard destruction" e), st, {})
  | none =>
    if o.ctxDoneFirst then
      (.error .ctxCanceled, st,
        { destroyInitiated := true, tracker := some ("remove", 60) })
    else
      match o.destroyResultErr with
      | some e =>
        (.error (.wrap "failed to destroy shard" e), st, { destroyInitiated := true })
      | none =>
        let st1 : StoreState := { st with registry := removeF st.registry key }
        let st2 : StoreState :=
          if o.dropSucceeded then { st1 with carIndex := st1.carIndex.filter (· ≠ key) }
          else st1
        let warned := !o.dropSucceeded
        match o.dropErr with
        | some e =>
          (.error (.wrap "failed to drop index" e), st2,
            { destroyInitiated := true, indexDropAttempted := true,
              warnedNotDropped := warned })
        | none =>
          match o.fileRemoveErr with
          | some e =>
            (.error (.wrap "failed to remove CAR file" e), st2,
              { destroyInitiated := true, indexDropAttempted := true,
                warnedNotDropped := warned, fileDeleteAttempted := true })
          | none =>
            (.ok (), { st2 with files := removeF st2.files key },
              { destroyInitiated := true, indexDropAttempted := true,
                warnedNotDropped := warned, fileDeleteAttempted := true })

/-! ### Start and Stop -/

/-- The lifecycle fields of the store relevant to `Start`/`Stop`:
whether the DAGStore was started, whether a cancel function was installed
(only a successful `Start` installs one), and the shutdown effects. -/
structure LifecycleState where
  dagStarted : Bool := false
  cancelInstalled : Bool := false
  gcCtxCancelled : Bool := false
  invertedClosed : Bool := false
  dagClosed : Bool := false
deriving DecidableEq, Repr

/-- `Store.Start`, translated from the source: start the DAGStore; only on
success create the background context and install its cancel function. -/
def Store.start (s : LifecycleState) (dagStartErr : Option GoErr) :
    Except GoErr LifecycleState :=
  match dagStartErr with
  | some e => .error e
  | none => .ok { s with dagStarted := true, cancelInstalled := true }

/-- Outcome of `Store.Stop`: either the deferred `s.cancel()` dereferenced
a nil function and panicked, or the call returned normally. -/
inductive StopOutcome where
  | panicked (s : LifecycleState)
  | returned (r : Option GoErr) (s : LifecycleState)
deriving Repr

/-- `Store.Stop`, translated from the source: the body closes the inverted
index (returning its error before touching the DAGStore) and then closes
the DAGStore; the deferred `s.cancel()` runs at return, panicking when no
cancel function was ever installed. -/
def Store.stop (s : LifecycleState) (invertedCloseErr dagCloseErr : Option GoErr) :
    StopOutcome :=
  let body : Option GoErr × LifecycleState :=
    match invertedCloseErr with
    | some e => (some e, s)
    | none =>
      let s1 : LifecycleState := { s with invertedClosed := true }
      match dagCloseErr with
      | some e => (some e, s1)
      | none => (none, { s1 with dagClosed := true })
  if body.2.cancelInstalled then
    .returned body.1 { body.2 with gcCtxCancelled := true }
  else
    .panicked body.2

/-! ### The in-memory once mount -/

/-- `inMemoryOnceMount`: an optional one-shot in-memory buffer in front of
a file mount, with the `readOnce` flag the source swaps atomically. -/
structure InMemoryOnceMount where
  buf : Option Bytes := none
  readOnce : Bool := false
  path : String
deriving DecidableEq, Repr

/-- Where a fetch was served from: the in-memory buffer or the file. -/
inductive FetchSrc where
  | memory (bytes : Bytes)
  | file (path : String)
deriving DecidableEq, Repr

/-- `inMemoryOnceMount.Fetch`, translated from the source: when a buffer
is present, swap `readOnce` to true; if it was previously false, serve a
reader over the buffer and release the buffer (set it to nil); in every
other case fall back to fetching the file mount's path. -/
def InMemoryOnceMount.fetch (m : InMemoryOnceMount) : FetchSrc × InMemoryOnceMount :=
  match m.buf with
  | some b =>
    if m.readOnce then
      (.file m.path, { m with readOnce := true })
    else
      (.memory b, { m with buf := none, readOnce := true })
  | none => (.file m.path, m)

/-- `StopOutcome.crashed` is true exactly when `Stop` panicked. -/
def StopOutcome.crashed : StopOutcome → Bool
  | .panicked _ => true
  | .returned _ _ => false

/-! ### Helper lemmas: codec round trip -/

theorem decBytes_enc (x t : Bytes) : decBytes (encBytes x ++ t) = some (x, t) := by
  simp only [encBytes, List.cons_append, decBytes, List.length_append]
  rw [if_pos (Nat.le_add_right _ _), List.take_left, List.drop_left]

theorem decBytesMany_enc (xs : List Bytes) (t : Bytes) :
    decBytesMany xs.length (xs.flatMap encBytes ++ t) = some (xs, t) := by
  induction xs generalizing t with
  | nil => simp [decBytesMany]
  | cons x xs ih =>
    simp only [List.flatMap_cons, List.length_cons, List.append_assoc, decBytesMany,
      decBytes_enc, ih]

theorem decL2_enc (xss : List Bytes) (t : Bytes) :
    decL2 (encL2 xss ++ t) = some (xss, t) := by
  simp only [encL2, List.cons_append, decL2]
  exact decBytesMany_enc xss t

theorem decL2Many_enc (xs : List (List Bytes)) (t : Bytes) :
    decL2Many xs.length (xs.flatMap encL2 ++ t) = some (xs, t) := by
  induction xs generalizing t with
  | nil => simp [decL2Many]
  | cons x xs ih =>
    simp only [List.flatMap_cons, List.length_cons, List.append_assoc, decL2Many,
      decL2_enc, ih]

theorem decL3_enc (x : EDS) (t : Bytes) : decL3 (encL3 x ++ t) = some (x, t) := by
  simp only [encL3, List.cons_append, decL3]
  exact decL2Many_enc x t

theorem readEDS_writeEDS (S : EDS) : readEDS (writeEDS S) (rootOf S) = .ok S := by
  have h3 : decL3 (encL3 S) = some (S, []) := by
    have := decL3_enc S []
    simpa using this
  simp only [readEDS, writeEDS, decL2_enc, h3]
  simp

/-! ### Helper lemmas: association lists -/

theorem lookupF_setF_self {α : Type} (l : List (Key × α)) (k : Key) (v : α) :
    lookupF (setF l k v) k = some v := by
  induction l with
  | nil => simp [setF, lookupF]
  | cons p rest ih =>
    obtain ⟨k', v'⟩ := p
    by_cases h : k' = k
    · simp [setF, h, lookupF]
    · simp [setF, h, lookupF, ih]

theorem lookupF_setF_ne {α : Type} (l : List (Key × α)) (k k' : Key) (v : α)
    (h : k' ≠ k) : lookupF (setF l k v) k' = lookupF l k' := by
  induction l with
  | nil =>
    simp only [setF, lookupF]
    rw [if_neg (Ne.symm h)]
  | cons p rest ih =>
    obtain ⟨k'', v''⟩ := p
    by_cases hk : k'' = k
    · have hkc : k'' ≠ k' := by rw [hk]; exact Ne.symm h
      simp only [setF, if_pos hk, lookupF, if_neg (Ne.symm h), if_neg hkc]
    · by_cases hk2 : k'' = k'
      · simp only [setF, if_neg hk, lookupF, if_pos hk2]
      · simp only [setF, if_neg hk, lookupF, if_neg hk2, ih]

theorem mem_map_fst_setF {α : Type} (l : List (Key × α)) (k a : Key) (v : α)
    (h : a ∈ (setF l k v).map Prod.fst) : a = k ∨ a ∈ l.map Prod.fst := by
  induction l with
  | nil => simpa [setF] using h
  | cons p rest ih =>
    obtain ⟨k', v'⟩ := p
    by_cases hk : k' = k
    · simp only [setF, if_pos hk, List.map_cons, List.mem_cons] at h
      rcases h with h | h
      · exact Or.inl h
      · exact Or.inr (by simp [h])
    · simp only [setF, if_neg hk, List.map_cons, List.mem_cons] at h
      rcases h with h | h
      · exact Or.inr (by simp [h])
      · rcases ih h with h' | h'
        · exact Or.inl h'
        · exact Or.inr (by simp [h'])

theorem nodup_map_fst_setF {α : Type} (l : List (Key × α)) (k : Key) (v : α)
    (h : (l.map Prod.fst).Nodup) : ((setF l k v).map Prod.fst).Nodup := by
  induction l with
  | nil => simp [setF]
  | cons p rest ih =>
    obtain ⟨k', v'⟩ := p
    simp only [List.map_cons, List.nodup_cons] at h
    by_cases hk : k' = k
    · subst hk
      simpa [setF, List.nodup_cons] using h
    · simp only [setF, if_neg hk, List.map_cons, List.nodup_cons]
      refine ⟨fun hm => ?_, ih h.2⟩
      rcases mem_map_fst_setF rest k k' v hm with h' | h'
      · exact hk h'
      · exact h.1 h'

theorem countKey_cons_ne {α : Type} (k' : Key) (v' : α) (rest : List (Key × α))
    (k : Key) (h : k' ≠ k) : countKey ((k', v') :: rest) k = countKey rest k := by
  simp [countKey, List.filter_cons, h]

theorem countKey_cons_eq {α : Type} (k' : Key) (v' : α) (rest : List (Key × α))
    (k : Key) (h : k' = k) : countKey ((k', v') :: rest) k = countKey rest k + 1 := by
  simp [countKey, List.filter_cons, h]

theorem countKey_eq_zero_of_not_mem {α : Type} (l : List (Key × α)) (k : Key)
    (h : k ∉ l.map Prod.fst) : countKey l k = 0 := by
  induction l with
  | nil => rfl
  | cons p rest ih =>
    obtain ⟨k', v'⟩ := p
    simp only [List.map_cons, List.mem_cons, not_or] at h
    rw [countKey_cons_ne k' v' rest k (fun he => h.1 he.symm)]
    exact ih h.2

theorem countKey_le_one_of_nodup {α : Type} (l : List (Key × α)) (k : Key)
    (h : (l.map Prod.fst).Nodup) : countKey l k ≤ 1 := by
  induction l with
  | nil => exact Nat.zero_le 1
  | cons p rest ih =>
    obtain ⟨k', v'⟩ := p
    simp only [List.map_cons, List.nodup_cons] at h
    by_cases hk : k' = k
    · rw [countKey_cons_eq k' v' rest k hk,
        countKey_eq_zero_of_not_mem rest k (hk ▸ h.1)]
    · rw [countKey_cons_ne k' v' rest k hk]
      exact ih h.2

theorem countKey_eq_one_of_lookup {α : Type} (l : List (Key × α)) (k : Key) (v : α)
    (hn : (l.map Prod.fst).Nodup) (hl : lookupF l k = some v) : countKey l k = 1 := by
  induction l with
  | nil => simp [lookupF] at hl
  | cons p rest ih =>
    obtain ⟨k', v'⟩ := p
    simp only [List.map_cons, List.nodup_cons] at hn
    by_cases hk : k' = k
    · rw [countKey_cons_eq k' v' rest k hk,
        countKey_eq_zero_of_not_mem rest k (hk ▸ hn.1)]
    · rw [countKey_cons_ne k' v' rest k hk]
      simp only [lookupF, if_neg hk] at hl
      exact ih hn.2 hl

/-! ### Concrete sample data for witnesses -/

/-- A small 2×2 sample square: four one-byte shares. -/
def sampleSquare : EDS := [[[1], [2]], [[3], [4]]]

/-- The sample square's data root. -/
def sampleRoot : DataHash := rootOf sampleSquare

/-- The sample square's shard key. -/
def sampleKey : Key := keyOf sampleRoot

/-- The empty store state. -/
def st0 : StoreState := ⟨[], [], [], []⟩

/-- A store state holding exactly the sample square: registered, with its
CAR file on disk and its index entry, nothing cached. -/
def stReg : StoreState :=
  ⟨[(sampleKey, ⟨none⟩)], [(sampleKey, writeEDS sampleSquare)], [sampleKey], []⟩

/-- A store state whose cache holds an accessor for the sample square. -/
def stCached : StoreState :=
  ⟨[(sampleKey, ⟨none⟩)], [(sampleKey, writeEDS sampleSquare)], [sampleKey],
    [(sampleKey, ⟨writeEDS sampleSquare⟩)]⟩

/-! ### Claim theorems -/

/-- C1: for every data root already present in the store (`Has` true,
errored shards included), `put` short-circuits with the distinguishable
`ErrShardExists`: it opens no file, writes no bytes, registers nothing,
leaves the state - registry contents and files included - unchanged, and
exactly one shard stays registered for the root. -/
theorem put_short_circuits_on_has (st : StoreState) (root : DataHash) (square : EDS)
    (o : PutOracle) (h : (Store.hasFn st root o.hasRegFailure).1 = true) :
    Store.put st root square o = (.error .shardExists, st, {}) ∧
    ((st.registry.map Prod.fst).Nodup →
      countKey (Store.put st root square o).2.1.registry (keyOf root) = 1) := by
  have hput : Store.put st root square o = (.error .shardExists, st, {}) := by
    simp [Store.put, h]
  refine ⟨hput, fun hn => ?_⟩
  rw [hput]
  rcases hrf : o.hasRegFailure with _ | e
  · rcases hlk : lookupF st.registry (keyOf root) with _ | info
    · exfalso
      simp [Store.hasFn, dagGetShardInfo, hrf, hlk] at h
    · exact countKey_eq_one_of_lookup st.registry (keyOf root) info hn hlk
  · exfalso
    simp only [Store.hasFn, dagGetShardInfo, hrf] at h
    split at h <;> simp at h

/-- Witness for C1 at the sample state holding the registered square. -/
theorem put_short_circuits_on_has_witness :
    (Store.hasFn stReg sampleRoot (({} : PutOracle)).hasRegFailure).1 = true ∧
    (Store.put stReg sampleRoot sampleSquare {} = (.error .shardExists, stReg, {}) ∧
     ((stReg.registry.map Prod.fst).Nodup →
       countKey (Store.put stReg sampleRoot sampleSquare {}).2.1.registry
         (keyOf sampleRoot) = 1)) :=
  ⟨by rfl, put_short_circuits_on_has stReg sampleRoot sampleSquare {} (by rfl)⟩

/-- C4: `has` reports `(true, storedErr)` for a registered shard (its
stored error state surfaced, `none` when healthy), `(false, none)` when
the registry reports the shard unknown, and `(false, err)` only for a
genuine registry error. -/
theorem has_registry_semantics :
    (∀ (st : StoreState) (root : DataHash) (info : ShardInfo),
      lookupF st.registry (keyOf root) = some info →
      Store.hasFn st root none = (true, info.err)) ∧
    (∀ (st : StoreState) (root : DataHash),
      lookupF st.registry (keyOf root) = none →
      Store.hasFn st root none = (false, none)) ∧
    (∀ (st : StoreState) (root : DataHash) (e : GoErr), e ≠ .shardUnknown →
      Store.hasFn st root (some e) = (false, some e)) := by
  refine ⟨?_, ?_, ?_⟩
  · intro st root info hlk
    simp [Store.hasFn, dagGetShardInfo, hlk]
  · intro st root hlk
    simp [Store.hasFn, dagGetShardInfo, hlk]
  · intro st root e he
    simp [Store.hasFn, dagGetShardInfo, he]

/-- Witness for C4: a registered errored shard, an unknown root, and a
genuine registry failure, each at a concrete state. -/
theorem has_registry_semantics_witness :
    Store.hasFn stReg sampleRoot none = (true, none) ∧
    Store.hasFn st0 sampleRoot none = (false, none) ∧
    Store.hasFn stReg sampleRoot (some (.ioErr "disk")) = (false, some (.ioErr "disk")) :=
  ⟨has_registry_semantics.1 stReg sampleRoot ⟨none⟩ (by rfl),
   has_registry_semantics.2.1 st0 sampleRoot (by rfl),
   has_registry_semantics.2.2 stReg sampleRoot (.ioErr "disk") (by decide)⟩

/-- C9: a buffer-backed mount is single-read - the first fetch serves a
reader over the in-memory buffer and nils the buffer out, and every later
fetch (and any fetch on a mount without a buffer) falls back to the
backing file path. -/
theorem inMemoryOnceMount_single_read :
    (∀ (b : Bytes) (p : String),
      InMemoryOnceMount.fetch ⟨some b, false, p⟩ = (.memory b, ⟨none, true, p⟩)) ∧
    (∀ m : InMemoryOnceMount, m.buf = none →
      InMemoryOnceMount.fetch m = (.file m.path, m)) ∧
    (∀ (b : Bytes) (p : String),
      InMemoryOnceMount.fetch ⟨some b, true, p⟩ = (.file p, ⟨some b, true, p⟩)) ∧
    (∀ (b : Bytes) (p : String),
      (InMemoryOnceMount.fetch (InMemoryOnceMount.fetch ⟨some b, false, p⟩).2).1 =
        .file p) := by
  refine ⟨?_, ?_, ?_, ?_⟩
  · intro b p
    rfl
  · intro m hm
    cases m with
    | mk buf ro p =>
      cases hm
      rfl
  · intro b p
    rfl
  · intro b p
    rfl

/-- Witness for C9 at a concrete buffered mount. -/
theorem inMemoryOnceMount_single_read_witness :
    InMemoryOnceMount.fetch ⟨none, false, "f"⟩ = (.file "f", ⟨none, false, "f"⟩) ∧
    InMemoryOnceMount.fetch ⟨some [7], false, "f"⟩ = (.memory [7], ⟨none, true, "f"⟩) :=
  ⟨inMemoryOnceMount_single_read.2.1 ⟨none, false, "f"⟩ (by rfl),
   inMemoryOnceMount_single_read.1 [7] "f"⟩

/-- C10: `Stop` unconditionally runs the deferred cancel that only a
successful `Start` installs, so stopping a never-started store panics on
the nil function; a failed `Start` installs nothing; after a successful
`Start`, `Stop` cancels the background GC context, closes the inverted
index, and closes the DAG store. -/
theorem stop_requires_start :
    (∀ (s : LifecycleState) (i d : Option GoErr), s.cancelInstalled = false →
      (Store.stop s i d).crashed = true) ∧
    (∀ (s : LifecycleState) (e : GoErr), Store.start s (some e) = .error e) ∧
    (∀ s : LifecycleState, Store.start s none =
      .ok { s with dagStarted := true, cancelInstalled := true }) ∧
    (∀ (s s₁ : LifecycleState), Store.start s none = .ok s₁ →
      Store.stop s₁ none none =
        .returned none
          { s₁ with gcCtxCancelled := true, invertedClosed := true, dagClosed := true }) := by
  refine ⟨?_, ?_, ?_, ?_⟩
  · intro s i d h
    cases i <;> cases d <;> simp [Store.stop, StopOutcome.crashed, h]
  · intro s e
    rfl
  · intro s
    rfl
  · intro s s₁ h
    simp only [Store.start, Except.ok.injEq] at h
    subst h
    rfl

/-- Witness for C10: a fresh store panics on `Stop`; a started one shuts
down cleanly. -/
theorem stop_requires_start_witness :
    (Store.stop ({ } : LifecycleState) none none).crashed = true ∧
    Store.stop { dagStarted := true, cancelInstalled := true } none none =
      .returned none
        { dagStarted := true, cancelInstalled := true, gcCtxCancelled := true,
          invertedClosed := true, dagClosed := true } :=
  ⟨stop_requires_start.1 {} none none (by rfl),
   stop_requires_start.2.2.2 {} { dagStarted := true, cancelInstalled := true } (by rfl)⟩

/-- C3: `remove` performs destroy, then index drop, then file deletion,
strictly in that order: a destruction initiation failure, a cancellation,
or a destruction error returns before the index is touched; an index drop
that merely reports nothing dropped is logged as a warning while file
deletion still proceeds; a genuine index-drop error or a file-deletion
error is surfaced. -/
theorem remove_ordered_steps (st : StoreState) (root : DataHash) :
    (∀ (o : RemoveOracle) (e : GoErr), o.destroyInitErr = some e →
      Store.remove st root o =
        (.error (.wrap "failed to initiate shard destruction" e), st, {})) ∧
    (∀ o : RemoveOracle, o.destroyInitErr = none → o.ctxDoneFirst = true →
      Store.remove st root o =
        (.error .ctxCanceled, st,
          { destroyInitiated := true, tracker := some ("remove", 60) })) ∧
    (∀ (o : RemoveOracle) (e : GoErr), o.destroyInitErr = none → o.ctxDoneFirst = false →
      o.destroyResultErr = some e →
      Store.remove st root o =
        (.error (.wrap "failed to destroy shard" e), st, { destroyInitiated := true })) ∧
    (∀ o : RemoveOracle, o.destroyInitErr = none → o.ctxDoneFirst = false →
      o.destroyResultErr = none → o.dropSucceeded = false → o.dropErr = none →
      (Store.remove st root o).2.2.warnedNotDropped = true ∧
      (Store.remove st root o).2.2.fileDeleteAttempted = true) ∧
    (∀ (o : RemoveOracle) (e : GoErr), o.destroyInitErr = none → o.ctxDoneFirst = false →
      o.destroyResultErr = none → o.dropErr = some e →
      (Store.remove st root o).1 = .error (.wrap "failed to drop index" e) ∧
      (Store.remove st root o).2.2.fileDeleteAttempted = false) ∧
    (∀ (o : RemoveOracle) (e : GoErr), o.destroyInitErr = none → o.ctxDoneFirst = false →
      o.destroyResultErr = none → o.dropErr = none → o.fileRemoveErr = some e →
      (Store.remove st root o).1 = .error (.wrap "failed to remove CAR file" e) ∧
      (Store.remove st root o).2.2.indexDropAttempted = true) := by
  refine ⟨?_, ?_, ?_, ?_, ?_, ?_⟩
  · intro o e h1
    simp [Store.remove, h1]
  · intro o h1 h2
    simp [Store.remove, h1, h2]
  · intro o e h1 h2 h3
    simp [Store.remove, h1, h2, h3]
  · intro o h1 h2 h3 h4 h5
    cases hfr : o.fileRemoveErr <;>
      simp [Store.remove, h1, h2, h3, h4, h5, hfr]
  · intro o e h1 h2 h3 h4
    simp [Store.remove, h1, h2, h3, h4]
  · intro o e h1 h2 h3 h4 h5
    simp [Store.remove, h1, h2, h3, h4, h5]

/-- Witness for C3: each abort point and the proceed-past-warning case at
concrete oracles over the sample state. -/
theorem remove_ordered_steps_witness :
    Store.remove stReg sampleRoot { destroyInitErr := some (.ioErr "x") } =
      (.error (.wrap "failed to initiate shard destruction" (.ioErr "x")), stReg, {}) ∧
    (Store.remove stReg sampleRoot { dropSucceeded := false }).2.2.warnedNotDropped = true ∧
    (Store.remove stReg sampleRoot { dropErr := some (.ioErr "y") }).2.2.fileDeleteAttempted
      = false ∧
    (Store.remove stReg sampleRoot { fileRemoveErr := some (.ioErr "z") }).1 =
      .error (.wrap "failed to remove CAR file" (.ioErr "z")) :=
  ⟨(remove_ordered_steps stReg sampleRoot).1 { destroyInitErr := some (.ioErr "x") }
      (.ioErr "x") (by rfl),
   ((remove_ordered_steps stReg sampleRoot).2.2.2.1 { dropSucceeded := false }
      (by rfl) (by rfl) (by rfl) (by rfl) (by rfl)).1,
   ((remove_ordered_steps stReg sampleRoot).2.2.2.2.1 { dropErr := some (.ioErr "y") }
      (.ioErr "y") (by rfl) (by rfl) (by rfl) (by rfl)).2,
   ((remove_ordered_steps stReg sampleRoot).2.2.2.2.2 { fileRemoveErr := some (.ioErr "z") }
      (.ioErr "z") (by rfl) (by rfl) (by rfl) (by rfl) (by rfl)).1⟩

/-- C5: when the caller's context is done before the lifecycle result
arrives, `put`, accessor acquisition, and `remove` each return the
context's error immediately and hand the single-use result channel to a
detached tracker whose ceiling is 5 minutes (300 s) for `put`'s
registration and 1 minute (60 s) for acquisition and for `remove`'s
destruction; the tracker waits at most its ceiling. -/
theorem cancellation_detached_tracker :
    (∀ (st : StoreState) (root : DataHash) (square : EDS) (o : PutOracle),
      (Store.hasFn st root o.hasRegFailure).1 = false → o.openErr = none →
      o.writeEDSErr = none → o.writeToErr = none → o.regInitErr = none →
      o.ctxDoneFirst = true →
      (Store.put st root square o).1 = .error .ctxCanceled ∧
      (Store.put st root square o).2.2.tracker = some ("put", 300)) ∧
    (∀ (st : StoreState) (key : Key) (o : AcquireOracle) (info : ShardInfo),
      lookupF st.registry key = some info → o.initErrExtra = none →
      o.ctxDoneFirst = true →
      Store.getAccessor st key o =
        { res := .error .ctxCanceled, acquires := 1,
          tracker := some ("get_shard", 60), st := st }) ∧
    (∀ (st : StoreState) (root : DataHash) (o : RemoveOracle),
      o.destroyInitErr = none → o.ctxDoneFirst = true →
      (Store.remove st root o).1 = .error .ctxCanceled ∧
      (Store.remove st root o).2.2.tracker = some ("remove", 60)) ∧
    (∀ (arrival : Option Nat) (w : Nat), trackLateWait arrival w ≤ w) := by
  refine ⟨?_, ?_, ?_, ?_⟩
  · intro st root square o h1 h2 h3 h4 h5 h6
    simp [Store.put, h1, h2, h3, h4, h5, h6]
  · intro st key o info h1 h2 h3
    simp [Store.getAccessor, dagAcquireInitErr, h1, h2, h3]
  · intro st root o h1 h2
    simp [Store.remove, h1, h2]
  · intro arrival w
    cases arrival with
    | none => exact Nat.le_refl w
    | some t => exact Nat.min_le_right t w

/-- Witness for C5: concrete cancelled calls over the sample states. -/
theorem cancellation_detached_tracker_witness :
    (Store.put st0 sampleRoot sampleSquare { ctxDoneFirst := true }).2.2.tracker =
      some ("put", 300) ∧
    Store.getAccessor stReg sampleKey { ctxDoneFirst := true } =
      { res := .error .ctxCanceled, acquires := 1,
        tracker := some ("get_shard", 60), st := stReg } ∧
    (Store.remove stReg sampleRoot { ctxDoneFirst := true }).2.2.tracker =
      some ("remove", 60) :=
  ⟨(cancellation_detached_tracker.1 st0 sampleRoot sampleSquare { ctxDoneFirst := true }
      (by rfl) (by rfl) (by rfl) (by rfl) (by rfl) (by rfl)).2,
   cancellation_detached_tracker.2.1 stReg sampleKey { ctxDoneFirst := true } ⟨none⟩
      (by rfl) (by rfl) (by rfl),
   (cancellation_detached_tracker.2.2.1 stReg sampleRoot { ctxDoneFirst := true }
      (by rfl) (by rfl)).2⟩

/-- C6: for a root that is neither registered nor cached, `get`, `getCAR`,
`carBlockstore` and `getDAH` all fail with an error that `errors.Is`
matches against the store's `ErrNotFound` - the lifecycle manager's
unknown-shard error is mapped to `ErrNotFound` during acquisition. -/
theorem unregistered_root_not_found (st : StoreState) (root : DataHash) (o : AcquireOracle)
    (hreg : lookupF st.registry (keyOf root) = none)
    (hcache : lookupF st.cache (keyOf root) = none) :
    (∃ e, (Store.get st root o).res = .error e ∧ errIs e .notFound = true) ∧
    (∃ e, (Store.getCAR st root o).res = .error e ∧ errIs e .notFound = true) ∧
    (∃ e, (Store.carBlockstore st root o).res = .error e ∧ errIs e .notFound = true) ∧
    (∃ e, (Store.getDAH st root o).res = .error e ∧ errIs e .notFound = true) := by
  have hacc : Store.getCachedAccessor st (keyOf root) o =
      { res := .error .notFound, acquires := 1, tracker := none,
        stripe := shardKeyToStriped (keyOf root), st := st } := by
    simp [Store.getCachedAccessor, hcache, Store.getAccessor, dagAcquireInitErr, hreg, errIs]
  refine ⟨⟨.wrap "failed to get CAR file" (.wrap "failed to get accessor" .notFound), ?_, by decide⟩,
    ⟨.wrap "failed to get accessor" .notFound, ?_, by decide⟩,
    ⟨.wrap "eds/store: failed to get accessor" .notFound, ?_, by decide⟩,
    ⟨.wrap "eds/store: failed to get accessor" .notFound, ?_, by decide⟩⟩
  · simp [Store.get, Store.getCAR, hacc]
  · simp [Store.getCAR, hacc]
  · simp [Store.carBlockstore, hacc]
  · simp [Store.getDAH, hacc]

/-- Witness for C6 at the empty store. -/
theorem unregistered_root_not_found_witness :
    lookupF st0.registry (keyOf sampleRoot) = none ∧
    (∃ e, (Store.get st0 sampleRoot {}).res = .error e ∧ errIs e .notFound = true) :=
  ⟨by rfl, (unregistered_root_not_found st0 sampleRoot {} (by rfl) (by rfl)).1⟩

/-- A cache hit returns the cached accessor under the key's stripe with no
new acquisition and an unchanged state. -/
theorem getCachedAccessor_hit (st : StoreState) (key : Key) (o : AcquireOracle)
    (a : Accessor) (h : lookupF st.cache key = some a) :
    Store.getCachedAccessor st key o =
      { res := .ok a, acquires := 0, tracker := none,
        stripe := shardKeyToStriped key, st := st } := by
  simp [Store.getCachedAccessor, h]

/-- A successful cache lookup leaves the accessor cached under its key. -/
theorem getCachedAccessor_caches (st : StoreState) (key : Key) (o : AcquireOracle)
    (a : Accessor) (h : (Store.getCachedAccessor st key o).res = .ok a) :
    lookupF (Store.getCachedAccessor st key o).st.cache key = some a := by
  rcases hlk : lookupF st.cache key with _ | a'
  · rcases hres : (Store.getAccessor st key o).res with e | a''
    · exfalso
      simp [Store.getCachedAccessor, hlk, hres] at h
    · have ha : a'' = a := by
        simpa [Store.getCachedAccessor, hlk, hres] using h
      subst ha
      simp [Store.getCachedAccessor, hlk, hres, lookupF_setF_self]
  · have ha : a' = a := by
      simpa [Store.getCachedAccessor, hlk] using h
    subst ha
    simp [Store.getCachedAccessor, hlk]

/-- C2: putting a square `S` under its own root into a store that does not
already contain it succeeds, and a following `get` of that root succeeds
and returns `S` itself - in particular the flattened shares are
byte-identical. -/
theorem put_get_roundtrip (st : StoreState) (S : EDS)
    (hhas : (Store.hasFn st (rootOf S) none).1 = false)
    (hcache : lookupF st.cache (keyOf (rootOf S)) = none) :
    (Store.put st (rootOf S) S {}).1 = .ok () ∧
    (Store.get (Store.put st (rootOf S) S {}).2.1 (rootOf S) {}).res = .ok S := by
  have hput : Store.put st (rootOf S) S {} =
      (.ok (),
        { st with
            files := setF (setF st.files (keyOf (rootOf S)) [])
              (keyOf (rootOf S)) (writeEDS S),
            registry := setF st.registry (keyOf (rootOf S)) ⟨none⟩ },
        { fileOpened := true, bytesWritten := (writeEDS S).length,
          registerInitiated := true }) := by
    simp [Store.put, hhas]
  refine ⟨by rw [hput], ?_⟩
  have hkcache : lookupF ((Store.put st (rootOf S) S {}).2.1).cache (keyOf (rootOf S)) =
      none := by
    rw [hput]
    exact hcache
  have hkreg : lookupF ((Store.put st (rootOf S) S {}).2.1).registry (keyOf (rootOf S)) =
      some ⟨none⟩ := by
    rw [hput]
    exact lookupF_setF_self st.registry (keyOf (rootOf S)) ⟨none⟩
  have hkfiles : lookupF ((Store.put st (rootOf S) S {}).2.1).files (keyOf (rootOf S)) =
      some (writeEDS S) := by
    rw [hput]
    exact lookupF_setF_self _ (keyOf (rootOf S)) (writeEDS S)
  simp [Store.get, Store.getCAR, Store.getCachedAccessor, hkcache, Store.getAccessor,
    dagAcquireInitErr, hkreg, hkfiles, readEDS_writeEDS]

/-- Witness for C2: the sample square round-trips through the empty store. -/
theorem put_get_roundtrip_witness :
    (Store.hasFn st0 (rootOf sampleSquare) none).1 = false ∧
    (Store.put st0 (rootOf sampleSquare) sampleSquare {}).1 = .ok () ∧
    (Store.get (Store.put st0 (rootOf sampleSquare) sampleSquare {}).2.1
      (rootOf sampleSquare) {}).res = .ok sampleSquare :=
  ⟨by rfl, put_get_roundtrip st0 sampleSquare (by rfl) (by rfl)⟩

/-- C7: `getDAH` reads only the leading CAR header (the parse is fixed by
the header section alone), rebuilds the DAH with the first half of the
header's root list as row roots and the second half as column roots in
order, returns that DAH exactly when its recomputed hash equals the
requested root, fails with the content-integrity-mismatch error when it
differs, and on a shard written for square `S` yields `S`'s own row and
column roots. -/
theorem getDAH_header_integrity :
    (∀ h : CarHeader,
      (dahFromCARHeader h).rowRoots =
        (h.roots.map namespacedSha256FromCID).take (h.roots.length / 2) ∧
      (dahFromCARHeader h).columnRoots =
        (h.roots.map namespacedSha256FromCID).drop (h.roots.length / 2)) ∧
    (∀ (hdrRoots : List Bytes) (t : Bytes),
      readCARHeader (encL2 hdrRoots ++ t) = some ⟨hdrRoots⟩) ∧
    (∀ (st : StoreState) (root : DataHash) (o : AcquireOracle) (a : Accessor)
      (hd : CarHeader), lookupF st.cache (keyOf root) = some a →
      readCARHeader a.bytes = some hd →
      dahHashOf (dahFromCARHeader hd) = root →
      (Store.getDAH st root o).res = .ok (dahFromCARHeader hd)) ∧
    (∀ (st : StoreState) (root : DataHash) (o : AcquireOracle) (a : Accessor)
      (hd : CarHeader), lookupF st.cache (keyOf root) = some a →
      readCARHeader a.bytes = some hd →
      dahHashOf (dahFromCARHeader hd) ≠ root →
      (Store.getDAH st root o).res = .error (.integrityMismatch (keyOf root))) ∧
    (∀ (st : StoreState) (S : EDS) (o : AcquireOracle) (a : Accessor),
      lookupF st.cache (keyOf (rootOf S)) = some a → a.bytes = writeEDS S →
      (Store.getDAH st (rootOf S) o).res = .ok ⟨rowRoots S, colRoots S⟩) := by
  have hsplit : ∀ h : CarHeader,
      (dahFromCARHeader h).rowRoots =
        (h.roots.map namespacedSha256FromCID).take (h.roots.length / 2) ∧
      (dahFromCARHeader h).columnRoots =
        (h.roots.map namespacedSha256FromCID).drop (h.roots.length / 2) :=
    fun _ => ⟨rfl, rfl⟩
  have hhdr : ∀ (hdrRoots : List Bytes) (t : Bytes),
      readCARHeader (encL2 hdrRoots ++ t) = some ⟨hdrRoots⟩ := by
    intro hdrRoots t
    simp [readCARHeader, decL2_enc]
  have hok : ∀ (st : StoreState) (root : DataHash) (o : AcquireOracle) (a : Accessor)
      (hd : CarHeader), lookupF st.cache (keyOf root) = some a →
      readCARHeader a.bytes = some hd →
      dahHashOf (dahFromCARHeader hd) = root →
      (Store.getDAH st root o).res = .ok (dahFromCARHeader hd) := by
    intro st root o a hd hc hr hh
    simp [Store.getDAH, Store.getCachedAccessor, hc, hr, hh]
  have hmm : ∀ (st : StoreState) (root : DataHash) (o : AcquireOracle) (a : Accessor)
      (hd : CarHeader), lookupF st.cache (keyOf root) = some a →
      readCARHeader a.bytes = some hd →
      dahHashOf (dahFromCARHeader hd) ≠ root →
      (Store.getDAH st root o).res = .error (.integrityMismatch (keyOf root)) := by
    intro st root o a hd hc hr hh
    simp [Store.getDAH, Store.getCachedAccessor, hc, hr, hh]
  refine ⟨hsplit, hhdr, hok, hmm, ?_⟩
  intro st S o a hc hb
  have hroots : readCARHeader a.bytes =
      some ⟨(rowRoots S ++ colRoots S).map cidFromRoot⟩ := by
    rw [hb, writeEDS]
    exact hhdr _ _
  have hcomp : namespacedSha256FromCID ∘ cidFromRoot = id := funext fun r => rfl
  have hmap : ((rowRoots S ++ colRoots S).map cidFromRoot).map namespacedSha256FromCID =
      rowRoots S ++ colRoots S := by
    rw [List.map_map, hcomp, List.map_id]
  have hlenr : (rowRoots S).length = S.length := by simp [rowRoots]
  have hlenc : (colRoots S).length = S.length := by simp [colRoots]
  have hlen : ((rowRoots S ++ colRoots S).map cidFromRoot).length = S.length + S.length := by
    simp [hlenr, hlenc]
  have hdiv : (S.length + S.length) / 2 = S.length := by omega
  have hdah : dahFromCARHeader ⟨(rowRoots S ++ colRoots S).map cidFromRoot⟩ =
      ⟨rowRoots S, colRoots S⟩ := by
    unfold dahFromCARHeader
    simp only [hmap, hlen, hdiv]
    rw [List.take_left' hlenr, List.drop_left' hlenr]
  have hhash : dahHashOf ⟨rowRoots S, colRoots S⟩ = rootOf S := rfl
  have := hok st (rootOf S) o a ⟨(rowRoots S ++ colRoots S).map cidFromRoot⟩ hc hroots
    (by rw [hdah, hhash])
  rw [this, hdah]

/-- Witness for C7: a cached shard for the sample square yields the sample
square's row and column roots, and a wrong root yields the
integrity-mismatch error. -/
theorem getDAH_header_integrity_witness :
    (Store.getDAH stCached (rootOf sampleSquare) {}).res =
      .ok ⟨rowRoots sampleSquare, colRoots sampleSquare⟩ ∧
    (Store.getDAH ⟨[], [], [], [(keyOf [9, 9], ⟨writeEDS sampleSquare⟩)]⟩ [9, 9] {}).res =
      .error (.integrityMismatch (keyOf [9, 9])) := by
  constructor
  · exact getDAH_header_integrity.2.2.2.2 stCached sampleSquare {}
      ⟨writeEDS sampleSquare⟩ (by rfl) (by rfl)
  · exact getDAH_header_integrity.2.2.2.1 ⟨[], [], [], [(keyOf [9, 9], ⟨writeEDS sampleSquare⟩)]⟩
      [9, 9] {} ⟨writeEDS sampleSquare⟩
      ⟨(rowRoots sampleSquare ++ colRoots sampleSquare).map cidFromRoot⟩
      (by rfl) (by rfl) (by decide)

/-- C8: at most one accessor is cached per shard key; a cache hit returns
the cached accessor with no new lifecycle acquisition, under the stripe
lock selected deterministically from the key's hash; and once a lookup has
succeeded, a repeated lookup for the same key hits the cache and performs
zero further acquisitions. -/
theorem accessor_cache_coherence :
    (∀ (st : StoreState) (key : Key) (o : AcquireOracle) (a : Accessor),
      lookupF st.cache key = some a →
      Store.getCachedAccessor st key o =
        { res := .ok a, acquires := 0, tracker := none,
          stripe := shardKeyToStriped key, st := st }) ∧
    (∀ (st : StoreState) (key : Key) (o : AcquireOracle),
      (Store.getCachedAccessor st key o).stripe = shardKeyToStriped key ∧
      shardKeyToStriped key = strHash key % 256) ∧
    (∀ (st : StoreState) (key : Key) (o : AcquireOracle),
      (st.cache.map Prod.fst).Nodup →
      ((Store.getCachedAccessor st key o).st.cache.map Prod.fst).Nodup ∧
      ∀ k', countKey (Store.getCachedAccessor st key o).st.cache k' ≤ 1) ∧
    (∀ (st : StoreState) (key : Key) (o o' : AcquireOracle) (a : Accessor),
      (Store.getCachedAccessor st key o).res = .ok a →
      (Store.getCachedAccessor (Store.getCachedAccessor st key o).st key o').res = .ok a ∧
      (Store.getCachedAccessor (Store.getCachedAccessor st key o).st key o').acquires
        = 0) := by
  refine ⟨getCachedAccessor_hit, ?_, ?_, ?_⟩
  · intro st key o
    refine ⟨?_, rfl⟩
    rcases hlk : lookupF st.cache key with _ | a
    · rcases hres : (Store.getAccessor st key o).res with e | a'
      · simp [Store.getCachedAccessor, hlk, hres]
      · simp [Store.getCachedAccessor, hlk, hres]
    · simp [Store.getCachedAccessor, hlk]
  · intro st key o hn
    rcases hlk : lookupF st.cache key with _ | a
    · rcases hres : (Store.getAccessor st key o).res with e | a'
      · have hst : (Store.getCachedAccessor st key o).st = st := by
          simp [Store.getCachedAccessor, hlk, hres]
        rw [hst]
        exact ⟨hn, fun k' => countKey_le_one_of_nodup st.cache k' hn⟩
      · have hst : (Store.getCachedAccessor st key o).st.cache = setF st.cache key a' := by
          simp [Store.getCachedAccessor, hlk, hres]
        rw [hst]
        have hn' := nodup_map_fst_setF st.cache key a' hn
        exact ⟨hn', fun k' => countKey_le_one_of_nodup _ k' hn'⟩
    · have hst : (Store.getCachedAccessor st key o).st = st := by
        simp [Store.getCachedAccessor, hlk]
      rw [hst]
      exact ⟨hn, fun k' => countKey_le_one_of_nodup st.cache k' hn⟩
  · intro st key o o' a h
    have hcached := getCachedAccessor_caches st key o a h
    have hhit := getCachedAccessor_hit (Store.getCachedAccessor st key o).st key o' a hcached
    rw [hhit]
    exact ⟨rfl, rfl⟩

/-- Witness for C8: a hit on the concretely cached sample accessor. -/
theorem accessor_cache_coherence_witness :
    lookupF stCached.cache sampleKey = some ⟨writeEDS sampleSquare⟩ ∧
    Store.getCachedAccessor stCached sampleKey {} =
      { res := .ok ⟨writeEDS sampleSquare⟩, acquires := 0, tracker := none,
        stripe := shardKeyToStriped sampleKey, st := stCached } :=
  ⟨by rfl,
   accessor_cache_coherence.1 stCached sampleKey {} ⟨writeEDS sampleSquare⟩ (by rfl)⟩

end EdsStore
